import Mathlib

/-!
Verification of the ROSCO `WTC_toolbox/controller.py` controller-tuning engine.

The source is shallowly embedded over `ℚ` (numpy double arithmetic is
idealised as exact rational arithmetic; `np.pi` and `np.deg2rad(1)` are
embedded as the rational values of their double approximations).  Numpy
arrays become `List ℚ`, elementwise numpy expressions become `List.map` /
`List.zipWith`, `np.arange` becomes `arangeQ`, `np.clip` becomes `clipQ`,
and `scipy.interpolate.interp1d` (which sorts its abscissae and then
interpolates linearly) becomes an insertion sort followed by piecewise
linear interpolation.  Division by zero in `ℚ` yields `0` where numpy
would produce `inf`/`nan`; every theorem whose meaning depends on a
division carries the corresponding nonzero hypothesis.
-/

namespace ROSCO

/-- Rational value of the double approximation of `np.pi`. -/
def piQ : ℚ := 3.141592653589793

/-- Rational value of the double approximation of `np.deg2rad(1)`. -/
def deg2rad : ℚ := 0.017453292519943295

/-- Embedding of `np.arange(start, stop, step)` for positive `step`: the list
`start, start+step, ...` of length `⌈(stop-start)/step⌉` (empty when that
quantity is nonpositive). -/
def arangeQ (start stop step : ℚ) : List ℚ :=
  (List.range (⌈(stop - start) / step⌉).toNat).map (fun k : ℕ => start + step * (k : ℚ))

/-- Maximum of a list of rationals (`np.max`); `0` on the empty list,
on which numpy raises instead. -/
def maxQ : List ℚ → ℚ
  | [] => 0
  | x :: xs => xs.foldl max x

/-- Minimum of a list of rationals (`np.min`); `0` on the empty list. -/
def minQ : List ℚ → ℚ
  | [] => 0
  | x :: xs => xs.foldl min x

/-- Embedding of `np.clip(x, lo, hi) = min(max(x, lo), hi)`. -/
def clipQ (x lo hi : ℚ) : ℚ := min (max x lo) hi

/-- Embedding of `np.diff(l)[0]`: difference of the first two entries; `0` when the
list has fewer than two entries, where numpy raises instead. -/
def diff0 : List ℚ → ℚ
  | a :: b :: _ => b - a
  | _ => 0

/-- Insert a pair into a list of pairs sorted by first component. -/
def insertByFst (p : ℚ × ℚ) : List (ℚ × ℚ) → List (ℚ × ℚ)
  | [] => [p]
  | q :: rest => if p.1 ≤ q.1 then p :: q :: rest else q :: insertByFst p rest

/-- Sort a list of pairs by first component (the argsort-by-`x` that
`scipy.interpolate.interp1d` performs on its abscissae). -/
def sortByFst (l : List (ℚ × ℚ)) : List (ℚ × ℚ) := l.foldr insertByFst []

/-- Piecewise-linear interpolation through a list of `(x, y)` pairs sorted
by `x`, evaluated at `q`.  Queries left of the first node use the first
segment; callers are responsible for range handling, as in the source. -/
def interpSorted : List (ℚ × ℚ) → ℚ → ℚ
  | [], _ => 0
  | [p], _ => p.2
  | p1 :: p2 :: rest, q =>
    if q ≤ p2.1 then p1.2 + (p2.2 - p1.2) * (q - p1.1) / (p2.1 - p1.1)
    else interpSorted (p2 :: rest) q

/-- Embedding of `scipy.interpolate.interp1d(x, y)(q)` with in-range `q`: sort the
`(x, y)` pairs by `x` and interpolate linearly. -/
def interp1dQ (x y : List ℚ) (q : ℚ) : ℚ :=
  interpSorted (sortByFst (x.zip y)) q

/-- Embedding of `scipy.interpolate.interp1d(x, y, bounds_error=False,
fill_value=(lo, hi))(q)`: out-of-range queries return the fill values. -/
def interp1dFill (x y : List ℚ) (lo hi : ℚ) (q : ℚ) : ℚ :=
  let ps := sortByFst (x.zip y)
  match ps with
  | [] => 0
  | p :: _ =>
    if q < p.1 then lo
    else if (ps.getLastD p).1 < q then hi
    else interpSorted ps q

/-- Embedding of `np.polyfit(x, y, 1)`: the least-squares straight line through the
points `(x i, y i)`, returned as `(slope, intercept)` via the normal
equations (the unique least-squares solution when `dQ x ≠ 0`, which the
optimality theorem below certifies). -/
def polyfit1 (x y : List ℚ) : ℚ × ℚ :=
  let n : ℚ := (x.length : ℚ)
  let Sx := x.sum
  let Sy := y.sum
  let Sxx := (x.map (fun t => t ^ 2)).sum
  let Sxy := (List.zipWith (· * ·) x y).sum
  let d := n * Sxx - Sx ^ 2
  let slope := (n * Sxy - Sx * Sy) / d
  (slope, (Sy - slope * Sx) / n)

/-- Determinant of the degree-1 least-squares normal equations for
abscissae `x`: positive exactly when `x` has two distinct entries. -/
def dQ (x : List ℚ) : ℚ :=
  (x.length : ℚ) * (x.map (fun t => t ^ 2)).sum - x.sum ^ 2

/-- Sum of squared residuals of the line `a*x + b` against the points
`(v i, y i)`. -/
def sse (v y : List ℚ) (a b : ℚ) : ℚ :=
  (List.zipWith (fun vi yi => (a * vi + b - yi) ^ 2) v y).sum

/-- Result bag of `ControllerTypes.second_order_PI`. -/
structure GainSchedule where
  Kp : List ℚ
  Ki : List ℚ
  deriving Repr, DecidableEq

/-- Embedding of `ControllerTypes.second_order_PI(zeta, om_n, A, B, linearize, v)`:
optionally replace `A` and `B` by their degree-1 least-squares fits
against `v` evaluated at every sample of `v`, then set
`Kp = 1/B * (2*zeta*om_n + A)` and `Ki = om_n^2/B` elementwise. -/
def second_order_PI (zeta om_n : ℚ) (A B : List ℚ) (linearize : Bool)
    (v : Option (List ℚ)) : GainSchedule :=
  let A2 :=
    if linearize then
      let vl := v.getD []
      let pA := polyfit1 vl A
      vl.map (fun x => pA.1 * x + pA.2)
    else A
  let B2 :=
    if linearize then
      let vl := v.getD []
      let pB := polyfit1 vl B
      vl.map (fun x => pB.1 * x + pB.2)
    else B
  { Kp := List.zipWith (fun a b => 1 / b * (2 * zeta * om_n + a)) A2 B2
    Ki := B2.map (fun b => om_n ^ 2 / b) }

/-- Elementwise combination of three equal-length lists (numpy broadcasting
of a ternary arithmetic expression). -/
def zipWith3 (f : ℚ → ℚ → ℚ → ℚ) : List ℚ → List ℚ → List ℚ → List ℚ
  | a :: as, b :: bs, c :: cs => f a b c :: zipWith3 f as bs cs
  | _, _, _ => []

/-- Elementwise combination of four equal-length lists. -/
def zipWith4 (f : ℚ → ℚ → ℚ → ℚ → ℚ × ℚ × ℚ) :
    List ℚ → List ℚ → List ℚ → List ℚ → List (ℚ × ℚ × ℚ)
  | a :: as, b :: bs, c :: cs, d :: ds => f a b c d :: zipWith4 f as bs cs ds
  | _, _, _, _ => []

/-- Elementwise scalar combination of four equal-length lists. -/
def zipWith4Q (f : ℚ → ℚ → ℚ → ℚ → ℚ) :
    List ℚ → List ℚ → List ℚ → List ℚ → List ℚ
  | a :: as, b :: bs, c :: cs, d :: ds => f a b c d :: zipWith4Q f as bs cs ds
  | _, _, _, _ => []

/-- A rotor performance-coefficient surface (the `RotorPerformance`
collaborator): point interpolation, gradient interpolation, and the
optimal tip-speed-ratio / maximum-coefficient pair. -/
structure PerfSurface where
  interp_point : ℚ → ℚ → ℚ
  interp_gradient : ℚ → ℚ → ℚ × ℚ
  TSR_opt : ℚ
  max : ℚ

/-- The turbine physical-parameter container (read-only collaborator). -/
structure Turbine where
  J : ℚ
  rho : ℚ
  rotor_radius : ℚ
  Ng : ℚ
  rated_rotor_speed : ℚ
  v_min : ℚ
  v_rated : ℚ
  v_max : ℚ
  pitch_initial_rad : List ℚ
  TSR_initial : List ℚ
  Cp : PerfSurface
  Ct : PerfSurface

/-- The surface slice `surface.interp_surface(pitch_initial_rad, tsr)`:
the coefficient at every tabulated pitch value, for a fixed `tsr`. -/
def surfaceSlice (s : PerfSurface) (pitch_grid : List ℚ) (tsr : ℚ) : List ℚ :=
  pitch_grid.map (fun p => s.interp_point p tsr)

/-- The `controller_params` mapping passed to `Controller.__init__`.
Optional entries are `Option ℚ`; a missing key or a Python-falsy value
(`None`, `0`, `0.0`, `False`) is modelled by `none` or `some 0`. -/
structure ControllerParams where
  zeta_pc : ℚ
  omega_pc : ℚ
  zeta_vs : ℚ
  omega_vs : ℚ
  min_pitch : Option ℚ
  max_pitch : Option ℚ
  ss_vsgain : Option ℚ
  ss_pcgain : Option ℚ
  ss_cornerfreq : Option ℚ
  ps_percent : Option ℚ

/-- Configuration state of a `Controller` after `__init__`. -/
structure ControllerCfg where
  zeta_pc : ℚ
  omega_pc : ℚ
  zeta_vs : ℚ
  omega_vs : ℚ
  min_pitch : ℚ
  max_pitch : ℚ
  ss_vsgain : ℚ
  ss_pcgain : ℚ
  ss_cornerfreq : ℚ
  ps_percent : ℚ
  deriving Repr, DecidableEq

/-- The `if controller_params[key]: use it, else: default` idiom: a falsy
(absent or zero) value is silently replaced by the default. -/
def pyFalsyDefault (v : Option ℚ) (default : ℚ) : ℚ :=
  match v with
  | none => default
  | some x => if x = 0 then default else x

/-- Embedding of `Controller.__init__`: copy the mandatory tuning targets and replace
each falsy optional parameter by its documented default. -/
def controllerInit (p : ControllerParams) : ControllerCfg :=
  { zeta_pc := p.zeta_pc
    omega_pc := p.omega_pc
    zeta_vs := p.zeta_vs
    omega_vs := p.omega_vs
    min_pitch := pyFalsyDefault p.min_pitch 0
    max_pitch := pyFalsyDefault p.max_pitch (90 * deg2rad)
    ss_vsgain := pyFalsyDefault p.ss_vsgain 1
    ss_pcgain := pyFalsyDefault p.ss_pcgain 0.001
    ss_cornerfreq := pyFalsyDefault p.ss_cornerfreq 0.62831850001
    ps_percent := pyFalsyDefault p.ps_percent 0.75 }

/-- Result bag of `ControllerBlocks.peak_shaving`. -/
structure PeakShaving where
  Tshaved : List ℚ
  pitch_min : List ℚ
  v : List ℚ
  Ct_max : List ℚ
  Ct_op : List ℚ
  T : List ℚ
  deriving Repr, DecidableEq

/-- Rotor area `A = pi*R**2` as recomputed inside `peak_shaving`. -/
def Turbine.Ar (t : Turbine) : ℚ := piQ * t.rotor_radius ^ 2

/-- Rotor thrust `0.5*rho*A*v**2*Ct` at one wind speed / coefficient. -/
def thrustOf (t : Turbine) (vv c : ℚ) : ℚ := 1 / 2 * t.rho * t.Ar * vv ^ 2 * c

/-- Unshaved thrust coefficients
`Ct_op[i] = turbine.Ct.interp_surface(pitch_op[i], TSR_op[i])`. -/
def psCt_op0 (t : Turbine) (TSR_op pitch_op : List ℚ) : List ℚ :=
  List.zipWith (fun p tsr => t.Ct.interp_point p tsr) pitch_op TSR_op

/-- Unshaved rotor thrusts `T = 0.5*rho*A*v**2*Ct_op`. -/
def psT (t : Turbine) (v TSR_op pitch_op : List ℚ) : List ℚ :=
  List.zipWith (thrustOf t) v (psCt_op0 t TSR_op pitch_op)

/-- Body of the peak-shaving loop at one operating point, given the
global thrust ceiling `Tmax`: recompute the thrust-coefficient ceiling
`Ct_max = Tmax/(0.5*rho*A*v**2)`, shave `Ct_op` down to it when the
unshaved thrust exceeds `Tmax` (otherwise clamp the ceiling to the
maximum achievable coefficient of the slice), and invert the slice at the
resulting ceiling for the minimum pitch, saturating at the pitch-grid
endpoints; returns `(Ct_op i, Ct_max i, pitch_min i)`. -/
def psBody (t : Turbine) (Tmax : ℚ) (tsr vv Tv c0 : ℚ) : ℚ × ℚ × ℚ :=
  let Ct_tsr := surfaceSlice t.Ct t.pitch_initial_rad tsr
  let ctmax0 := Tmax / (1 / 2 * t.rho * t.Ar * vv ^ 2)
  let cfin := if Tv > Tmax then ctmax0 else c0
  let ctmaxfin := if Tv > Tmax then ctmax0 else min (maxQ Ct_tsr) ctmax0
  let pmin := interp1dFill Ct_tsr t.pitch_initial_rad
    (t.pitch_initial_rad.headD 0) (t.pitch_initial_rad.getLastD 0) ctmaxfin
  (cfin, ctmaxfin, pmin)

/-- All three per-point outputs of the peak-shaving loop, with
`Tmax = ps_percent*np.max(T)`. -/
def psTrips (ps_percent : ℚ) (t : Turbine) (v TSR_op pitch_op : List ℚ) :
    List (ℚ × ℚ × ℚ) :=
  zipWith4 (psBody t (ps_percent * maxQ (psT t v TSR_op pitch_op)))
    TSR_op v (psT t v TSR_op pitch_op) (psCt_op0 t TSR_op pitch_op)

/-- Embedding of `ControllerBlocks.peak_shaving(controller, turbine)`: evaluate the
unshaved thrust along the trajectory, set the global ceiling
`Tmax = ps_percent * max T`, and for every index recompute the
thrust-coefficient ceiling, shave the operating coefficient where the
unshaved thrust exceeds `Tmax`, and set the minimum pitch by inverse
interpolation of the thrust-coefficient slice at the (clamped) ceiling.
The `pitch_min` entries are initialised to `min_pitch` and every index
covered by the loop is then overwritten. -/
def peak_shaving (ps_percent min_pitch : ℚ) (turbine : Turbine)
    (v TSR_op pitch_op : List ℚ) : PeakShaving :=
  let trips := psTrips ps_percent turbine v TSR_op pitch_op
  { Tshaved := List.zipWith (thrustOf turbine) v (trips.map (fun x => x.1))
    pitch_min := trips.map (fun x => x.2.2) ++
      (List.replicate pitch_op.length min_pitch).drop trips.length
    v := v
    Ct_max := trips.map (fun x => x.2.1)
    Ct_op := trips.map (fun x => x.1)
    T := psT turbine v TSR_op pitch_op }

/-- Result state of `Controller.tune_controller` (the attributes the
method stores on the controller object; `v_above_rated` is kept although
the source holds it only in a local variable). -/
structure TunedController where
  v : List ℚ
  v_below_rated : List ℚ
  v_above_rated : List ℚ
  Cp_op : List ℚ
  pitch_op : List ℚ
  pitch_op_pc : List ℚ
  TSR_op : List ℚ
  A : List ℚ
  B_beta : List ℚ
  B_tau : List ℚ
  pc_gain_schedule : GainSchedule
  vs_gain_schedule : GainSchedule
  vs_rgn2K : ℚ
  vs_refspd : ℚ
  vs_minspd : ℚ
  ps : PeakShaving

/-- Embedding of `TSR_rated = rated_rotor_speed*R/turbine.v_rated`. -/
def Turbine.TSR_rated (t : Turbine) : ℚ :=
  t.rated_rotor_speed * t.rotor_radius / t.v_rated

/-- Embedding of `v_below_rated = np.arange(turbine.v_min, turbine.v_rated, 0.5)`. -/
def Turbine.v_below_rated (t : Turbine) : List ℚ :=
  arangeQ t.v_min t.v_rated (1 / 2)

/-- Embedding of `v_above_rated = np.arange(turbine.v_rated+0.5, turbine.v_max, 0.5)`. -/
def Turbine.v_above_rated (t : Turbine) : List ℚ :=
  arangeQ (t.v_rated + 1 / 2) t.v_max (1 / 2)

/-- Embedding of `v = np.concatenate((v_below_rated, v_above_rated))`. -/
def Turbine.v_op (t : Turbine) : List ℚ := t.v_below_rated ++ t.v_above_rated

/-- Embedding of `TSR_below_rated = np.ones(len(v_below_rated))*turbine.Cp.TSR_opt`. -/
def Turbine.TSR_below_rated (t : Turbine) : List ℚ :=
  List.replicate t.v_below_rated.length t.Cp.TSR_opt

/-- Embedding of `TSR_above_rated = rated_rotor_speed*R/v_above_rated`. -/
def Turbine.TSR_above_rated (t : Turbine) : List ℚ :=
  t.v_above_rated.map (fun vv => t.rated_rotor_speed * t.rotor_radius / vv)

/-- Embedding of `TSR_op = np.concatenate((TSR_below_rated, TSR_above_rated))`. -/
def Turbine.TSR_op (t : Turbine) : List ℚ := t.TSR_below_rated ++ t.TSR_above_rated

/-- Embedding of `Cp_above_rated = turbine.Cp.interp_surface(0, TSR_above_rated[0])`. -/
def Turbine.Cp_above_rated (t : Turbine) : ℚ :=
  t.Cp.interp_point 0 (t.TSR_above_rated.headD 0)

/-- Embedding of `Cp_op` before the clamping loop:
`np.concatenate((ones(len(v_below_rated))*Cp.max, Cp_above_rated*(TSR_above_rated/TSR_rated)**3))`. -/
def Turbine.Cp_op0 (t : Turbine) : List ℚ :=
  List.replicate t.v_below_rated.length t.Cp.max ++
    t.TSR_above_rated.map (fun tsr => t.Cp_above_rated * (tsr / t.TSR_rated) ^ 3)

/-- Body of the per-operating-point loop: clamp the target `Cp` onto the
surface slice at the given tip-speed ratio, invert the slice to the
operating pitch, and query the surface gradient there; returns
`(Cp_op i, pitch_op i, dCp_beta i, dCp_TSR i)`. -/
def opPointBody (t : Turbine) (tc : ℚ × ℚ) : ℚ × ℚ × ℚ × ℚ :=
  let Cp_TSR := surfaceSlice t.Cp t.pitch_initial_rad tc.1
  let c := clipQ tc.2 (minQ Cp_TSR) (maxQ Cp_TSR)
  let p := interp1dQ Cp_TSR t.pitch_initial_rad c
  let g := t.Cp.interp_gradient p tc.1
  (c, p, g.1, g.2)

/-- All four per-point outputs of the loop over `range(len(TSR_op))`. -/
def Turbine.opQuads (t : Turbine) : List (ℚ × ℚ × ℚ × ℚ) :=
  (t.TSR_op.zip t.Cp_op0).map (opPointBody t)

/-- Embedding of `Cp_op` after the clamping loop. -/
def Turbine.Cp_op (t : Turbine) : List ℚ := t.opQuads.map (fun x => x.1)

/-- Embedding of `pitch_op`: the resolved operating pitch at every point. -/
def Turbine.pitch_op (t : Turbine) : List ℚ := t.opQuads.map (fun x => x.2.1)

/-- Embedding of `dCp_dbeta = dCp_beta/np.diff(pitch_initial_rad)[0]`. -/
def Turbine.dCp_dbeta (t : Turbine) : List ℚ :=
  (t.opQuads.map (fun x => x.2.2.1)).map (fun x => x / diff0 t.pitch_initial_rad)

/-- Embedding of `dCp_dTSR = dCp_TSR/np.diff(TSR_initial)[0]`. -/
def Turbine.dCp_dTSR (t : Turbine) : List ℚ :=
  (t.opQuads.map (fun x => x.2.2.2)).map (fun x => x / diff0 t.TSR_initial)

/-- Embedding of `dtau_dbeta = Ng/2*rho*Ar*R*(1/TSR_op)*dCp_dbeta*v**2`. -/
def Turbine.dtau_dbeta (t : Turbine) : List ℚ :=
  zipWith3 (fun tsr db vv => t.Ng / 2 * t.rho * t.Ar * t.rotor_radius * (1 / tsr) * db * vv ^ 2)
    t.TSR_op t.dCp_dbeta t.v_op

/-- Embedding of `dtau_dlambda = Ng/2*rho*Ar*R*v**2*(1/(TSR_op**2))*(dCp_dTSR*TSR_op - Cp_op)`. -/
def Turbine.dtau_dlambda (t : Turbine) : List ℚ :=
  zipWith4Q
    (fun tsr dt c vv =>
      t.Ng / 2 * t.rho * t.Ar * t.rotor_radius * vv ^ 2 * (1 / tsr ^ 2) * (dt * tsr - c))
    t.TSR_op t.dCp_dTSR t.Cp_op t.v_op

/-- Embedding of `dlambda_domega = R/v/Ng`. -/
def Turbine.dlambda_domega (t : Turbine) : List ℚ :=
  t.v_op.map (fun vv => t.rotor_radius / vv / t.Ng)

/-- Embedding of `dtau_domega = dtau_dlambda*dlambda_domega`. -/
def Turbine.dtau_domega (t : Turbine) : List ℚ :=
  List.zipWith (· * ·) t.dtau_dlambda t.dlambda_domega

/-- Plant pole `A = dtau_domega/J`. -/
def Turbine.plantA (t : Turbine) : List ℚ := t.dtau_domega.map (fun x => x / t.J)

/-- Torque input `B_tau = -Ng**2/J` (scalar, before replication). -/
def Turbine.B_tau0 (t : Turbine) : ℚ := -t.Ng ^ 2 / t.J

/-- Blade pitch input `B_beta = dtau_dbeta/J` (full trajectory, before
the above-rated slice). -/
def Turbine.B_beta0 (t : Turbine) : List ℚ := t.dtau_dbeta.map (fun x => x / t.J)

/-- Embedding of `Controller.tune_controller(turbine)`: build the below- and
above-rated wind-speed grids, the tip-speed-ratio and power-coefficient
targets, resolve the operating pitch per point by clamped inverse
interpolation on the Cp surface, linearize the torque dynamics, slice the
plant coefficients by region (`A_vs = A[0:len(v_below_rated)]`,
`A_pc = A[len(v_below_rated):len(v)]`, `B_tau = B_tau*ones(len(v_below_rated))`,
`B_beta = B_beta[len(v_below_rated):len(v)]`), synthesize both PI gain
schedules, and run peak shaving. -/
def tune_controller (ctrl : ControllerCfg) (t : Turbine) : TunedController :=
  let nb := t.v_below_rated.length
  let A_vs := t.plantA.take nb
  let A_pc := (t.plantA.take t.v_op.length).drop nb
  let B_tau := List.replicate nb t.B_tau0
  let B_beta := (t.B_beta0.take t.v_op.length).drop nb
  { v := t.v_op
    v_below_rated := t.v_below_rated
    v_above_rated := t.v_above_rated
    Cp_op := t.Cp_op
    pitch_op := t.pitch_op
    pitch_op_pc := (t.pitch_op.take t.v_op.length).drop nb
    TSR_op := t.TSR_op
    A := t.plantA
    B_beta := B_beta
    B_tau := B_tau
    pc_gain_schedule :=
      second_order_PI ctrl.zeta_pc ctrl.omega_pc A_pc B_beta true (some t.v_above_rated)
    vs_gain_schedule :=
      second_order_PI ctrl.zeta_vs ctrl.omega_vs A_vs B_tau false (some t.v_below_rated)
    vs_rgn2K := 1 / 2 * t.rho * t.Ar * t.rotor_radius ^ 5 * t.Cp.max / (t.Cp.TSR_opt ^ 3 * t.Ng)
    vs_refspd := min (t.Cp.TSR_opt * t.v_rated / t.rotor_radius) t.rated_rotor_speed * t.Ng
    vs_minspd := t.Cp.TSR_opt * t.v_min / t.rotor_radius * t.Ng
    ps := peak_shaving ctrl.ps_percent ctrl.min_pitch t t.v_op t.TSR_op t.pitch_op }

/-- Fitted values of the degree-1 least-squares polynomial of `y` against
`v`, evaluated at every sample of `v` (the
fit-then-substitute reference computation of the spec). -/
def linFit (v y : List ℚ) : List ℚ :=
  v.map (fun x => (polyfit1 v y).1 * x + (polyfit1 v y).2)

/-- The defaulting contract for one optional parameter: a falsy supplied
value yields the default, a non-falsy value is kept unchanged. -/
def defaultedTo (supplied : Option ℚ) (dflt result : ℚ) : Prop :=
  ((supplied = none ∨ supplied = some 0) → result = dflt) ∧
    (∀ x, supplied = some x → x ≠ 0 → result = x)

/-- A trivial performance surface used by concrete test models. -/
def surfZero : PerfSurface :=
  { interp_point := fun _ _ => 0
    interp_gradient := fun _ _ => (0, 0)
    TSR_opt := 1
    max := 1 }

/-- A thrust-coefficient surface decreasing in pitch, used by concrete
test models. -/
def surfCtLin : PerfSurface :=
  { interp_point := fun p _ => 1 - p
    interp_gradient := fun _ _ => (0, 0)
    TSR_opt := 1
    max := 1 }

/-- Concrete controller configuration with the documented defaults and
the tuning targets used throughout the spec examples. -/
def cfg1 : ControllerCfg :=
  { zeta_pc := 0.7
    omega_pc := 0.3
    zeta_vs := 0.7
    omega_vs := 0.2
    min_pitch := 0
    max_pitch := 90 * deg2rad
    ss_vsgain := 1
    ss_pcgain := 0.001
    ss_cornerfreq := 0.62831850001
    ps_percent := 0.75 }

/-- Concrete turbine with `v_min = 3`, `v_rated = 11.4`, `v_max = 25`
(the grid example named by the spec). -/
def T1 : Turbine :=
  { J := 1
    rho := 1
    rotor_radius := 1
    Ng := 1
    rated_rotor_speed := 1
    v_min := 3
    v_rated := 11.4
    v_max := 25
    pitch_initial_rad := [0, 1]
    TSR_initial := [1, 2]
    Cp := surfZero
    Ct := surfZero }

/-- Concrete turbine whose thrust-coefficient surface decreases in pitch,
used to evaluate `peak_shaving` on an explicit trajectory. -/
def T2 : Turbine :=
  { J := 1
    rho := 1
    rotor_radius := 1
    Ng := 1
    rated_rotor_speed := 1
    v_min := 1
    v_rated := 3 / 2
    v_max := 5 / 2
    pitch_initial_rad := [0, 1]
    TSR_initial := [1, 2]
    Cp := surfZero
    Ct := surfCtLin }

/-- Concrete `controller_params` mapping mixing falsy and non-falsy
optional entries. -/
def paramsW : ControllerParams :=
  { zeta_pc := 0.7
    omega_pc := 0.3
    zeta_vs := 0.7
    omega_vs := 0.2
    min_pitch := none
    max_pitch := some 1.2
    ss_vsgain := some 0
    ss_pcgain := some 0.002
    ss_cornerfreq := none
    ps_percent := some 0.8 }

/-! ### Infrastructure lemmas -/

theorem arangeQ_length (a b s : ℚ) :
    (arangeQ a b s).length = (⌈(b - a) / s⌉).toNat := by
  rw [arangeQ, List.length_map, List.length_range]

theorem mem_arangeQ {a b s x : ℚ} (hs : 0 < s) (hx : x ∈ arangeQ a b s) :
    a ≤ x ∧ x < b := by
  rw [arangeQ, List.mem_map] at hx
  obtain ⟨k, hk, rfl⟩ := hx
  rw [List.mem_range] at hk
  constructor
  · have hk0 : (0 : ℚ) ≤ s * (k : ℚ) := by positivity
    linarith
  · have h1 : ((k : ℕ) : ℤ) < ⌈(b - a) / s⌉ := Int.lt_toNat.mp hk
    have h2 : ((k : ℕ) : ℚ) < (b - a) / s := by exact_mod_cast Int.lt_ceil.mp h1
    have h3 : ((k : ℕ) : ℚ) * s < b - a := (lt_div_iff₀ hs).mp h2
    linarith

theorem zipWith3_length (f : ℚ → ℚ → ℚ → ℚ) :
    ∀ (as bs cs : List ℚ),
      (zipWith3 f as bs cs).length = min as.length (min bs.length cs.length)
  | [], _, _ => by simp [zipWith3]
  | _ :: _, [], _ => by simp [zipWith3]
  | _ :: _, _ :: _, [] => by simp [zipWith3]
  | a :: as, b :: bs, c :: cs => by
    simp [zipWith3, zipWith3_length f as bs cs, Nat.succ_min_succ]

theorem zipWith4Q_length (f : ℚ → ℚ → ℚ → ℚ → ℚ) :
    ∀ (as bs cs ds : List ℚ),
      (zipWith4Q f as bs cs ds).length =
        min as.length (min bs.length (min cs.length ds.length))
  | [], _, _, _ => by simp [zipWith4Q]
  | _ :: _, [], _, _ => by simp [zipWith4Q]
  | _ :: _, _ :: _, [], _ => by simp [zipWith4Q]
  | _ :: _, _ :: _, _ :: _, [] => by simp [zipWith4Q]
  | a :: as, b :: bs, c :: cs, d :: ds => by
    simp [zipWith4Q, zipWith4Q_length f as bs cs ds, Nat.succ_min_succ]

theorem zipWith4_length (f : ℚ → ℚ → ℚ → ℚ → ℚ × ℚ × ℚ) :
    ∀ (as bs cs ds : List ℚ),
      (zipWith4 f as bs cs ds).length =
        min as.length (min bs.length (min cs.length ds.length))
  | [], _, _, _ => by simp [zipWith4]
  | _ :: _, [], _, _ => by simp [zipWith4]
  | _ :: _, _ :: _, [], _ => by simp [zipWith4]
  | _ :: _, _ :: _, _ :: _, [] => by simp [zipWith4]
  | a :: as, b :: bs, c :: cs, d :: ds => by
    simp [zipWith4, zipWith4_length f as bs cs ds, Nat.succ_min_succ]

theorem zipWith4_get (f : ℚ → ℚ → ℚ → ℚ → ℚ × ℚ × ℚ) :
    ∀ (as bs cs ds : List ℚ) (i : ℕ)
      (h : i < (zipWith4 f as bs cs ds).length) (h1 : i < as.length)
      (h2 : i < bs.length) (h3 : i < cs.length) (h4 : i < ds.length),
      (zipWith4 f as bs cs ds).get ⟨i, h⟩ =
        f (as.get ⟨i, h1⟩) (bs.get ⟨i, h2⟩) (cs.get ⟨i, h3⟩) (ds.get ⟨i, h4⟩)
  | a :: as, b :: bs, c :: cs, d :: ds, 0, _, _, _, _, _ => rfl
  | a :: as, b :: bs, c :: cs, d :: ds, i + 1, h, h1, h2, h3, h4 =>
    zipWith4_get f as bs cs ds i (by simpa [zipWith4] using h)
      (Nat.lt_of_succ_lt_succ h1) (Nat.lt_of_succ_lt_succ h2)
      (Nat.lt_of_succ_lt_succ h3) (Nat.lt_of_succ_lt_succ h4)

theorem foldl_max_le_aux (xs : List ℚ) :
    ∀ a : ℚ, a ≤ xs.foldl max a ∧ ∀ x ∈ xs, x ≤ xs.foldl max a := by
  induction xs with
  | nil => intro a; simp
  | cons b rest ih =>
    intro a
    refine ⟨le_trans (le_max_left a b) (ih (max a b)).1, ?_⟩
    intro x hx
    rcases List.mem_cons.mp hx with rfl | hx
    · exact le_trans (le_max_right a x) (ih (max a x)).1
    · simpa using (ih (max a b)).2 x hx

theorem le_maxQ {l : List ℚ} {x : ℚ} (hx : x ∈ l) : x ≤ maxQ l := by
  cases l with
  | nil => simp at hx
  | cons a rest =>
    rcases List.mem_cons.mp hx with rfl | hx
    · exact (foldl_max_le_aux rest x).1
    · exact (foldl_max_le_aux rest a).2 x hx

theorem foldl_min_le_aux (xs : List ℚ) :
    ∀ a : ℚ, xs.foldl min a ≤ a ∧ ∀ x ∈ xs, xs.foldl min a ≤ x := by
  induction xs with
  | nil => intro a; simp
  | cons b rest ih =>
    intro a
    refine ⟨le_trans (ih (min a b)).1 (min_le_left a b), ?_⟩
    intro x hx
    rcases List.mem_cons.mp hx with rfl | hx
    · exact le_trans (ih (min a x)).1 (min_le_right a x)
    · simpa using (ih (min a b)).2 x hx

theorem minQ_le {l : List ℚ} {x : ℚ} (hx : x ∈ l) : minQ l ≤ x := by
  cases l with
  | nil => simp at hx
  | cons a rest =>
    rcases List.mem_cons.mp hx with rfl | hx
    · exact (foldl_min_le_aux rest x).1
    · exact (foldl_min_le_aux rest a).2 x hx

theorem minQ_le_maxQ {l : List ℚ} (hl : l ≠ []) : minQ l ≤ maxQ l := by
  cases l with
  | nil => simp at hl
  | cons a rest =>
    exact le_trans (minQ_le (List.mem_cons_self a rest))
      (le_maxQ (List.mem_cons_self a rest))

theorem clipQ_mem {x lo hi : ℚ} (h : lo ≤ hi) :
    lo ≤ clipQ x lo hi ∧ clipQ x lo hi ≤ hi := by
  unfold clipQ
  exact ⟨le_min (le_max_right x lo) h, min_le_right _ _⟩

theorem length_v_op (t : Turbine) :
    t.v_op.length = t.v_below_rated.length + t.v_above_rated.length :=
  List.length_append _ _

theorem length_TSR_op (t : Turbine) : t.TSR_op.length = t.v_op.length := by
  simp [Turbine.TSR_op, Turbine.TSR_below_rated, Turbine.TSR_above_rated, Turbine.v_op]

theorem length_Cp_op0 (t : Turbine) : t.Cp_op0.length = t.v_op.length := by
  simp [Turbine.Cp_op0, Turbine.TSR_above_rated, Turbine.v_op]

theorem length_opQuads (t : Turbine) : t.opQuads.length = t.v_op.length := by
  simp [Turbine.opQuads, length_TSR_op, length_Cp_op0]

theorem length_Cp_op (t : Turbine) : t.Cp_op.length = t.v_op.length := by
  simp [Turbine.Cp_op, length_opQuads]

theorem length_pitch_op (t : Turbine) : t.pitch_op.length = t.v_op.length := by
  simp [Turbine.pitch_op, length_opQuads]

theorem length_dCp_dbeta (t : Turbine) : t.dCp_dbeta.length = t.v_op.length := by
  simp [Turbine.dCp_dbeta, length_opQuads]

theorem length_dCp_dTSR (t : Turbine) : t.dCp_dTSR.length = t.v_op.length := by
  simp [Turbine.dCp_dTSR, length_opQuads]

theorem length_dtau_dbeta (t : Turbine) : t.dtau_dbeta.length = t.v_op.length := by
  simp [Turbine.dtau_dbeta, zipWith3_length, length_TSR_op, length_dCp_dbeta]

theorem length_dtau_dlambda (t : Turbine) : t.dtau_dlambda.length = t.v_op.length := by
  simp [Turbine.dtau_dlambda, zipWith4Q_length, length_TSR_op, length_dCp_dTSR,
    length_Cp_op]

theorem length_dtau_domega (t : Turbine) : t.dtau_domega.length = t.v_op.length := by
  simp [Turbine.dtau_domega, Turbine.dlambda_domega, length_dtau_dlambda]

theorem length_plantA (t : Turbine) : t.plantA.length = t.v_op.length := by
  simp [Turbine.plantA, length_dtau_domega]

theorem length_B_beta0 (t : Turbine) : t.B_beta0.length = t.v_op.length := by
  simp [Turbine.B_beta0, length_dtau_dbeta]

theorem peak_shaving_lengths (pp mp : ℚ) (t : Turbine) (v TSR pitch : List ℚ)
    (h1 : TSR.length = v.length) (h2 : pitch.length = v.length) :
    (peak_shaving pp mp t v TSR pitch).T.length = v.length ∧
    (peak_shaving pp mp t v TSR pitch).Ct_op.length = v.length ∧
    (peak_shaving pp mp t v TSR pitch).Ct_max.length = v.length ∧
    (peak_shaving pp mp t v TSR pitch).pitch_min.length = v.length ∧
    (peak_shaving pp mp t v TSR pitch).Tshaved.length = v.length := by
  have hT : (psT t v TSR pitch).length = v.length := by
    simp [psT, psCt_op0, h1, h2]
  have htr : (psTrips pp t v TSR pitch).length = v.length := by
    simp [psTrips, zipWith4_length, h1, h2, hT, psCt_op0]
  simp [peak_shaving, h1, h2, hT, htr]

theorem second_order_PI_false_lengths (zeta om_n : ℚ) (A B : List ℚ)
    (v : Option (List ℚ)) :
    (second_order_PI zeta om_n A B false v).Kp.length = min A.length B.length ∧
    (second_order_PI zeta om_n A B false v).Ki.length = B.length := by
  simp [second_order_PI]

theorem second_order_PI_true_lengths (zeta om_n : ℚ) (A B vl : List ℚ) :
    (second_order_PI zeta om_n A B true (some vl)).Kp.length = vl.length ∧
    (second_order_PI zeta om_n A B true (some vl)).Ki.length = vl.length := by
  simp [second_order_PI]

theorem pc_sched_lengths (c : ControllerCfg) (t : Turbine) :
    (tune_controller c t).pc_gain_schedule.Kp.length = t.v_above_rated.length ∧
    (tune_controller c t).pc_gain_schedule.Ki.length = t.v_above_rated.length := by
  constructor
  · simpa [tune_controller] using (second_order_PI_true_lengths c.zeta_pc c.omega_pc
      ((t.plantA.take t.v_op.length).drop t.v_below_rated.length)
      ((t.B_beta0.take t.v_op.length).drop t.v_below_rated.length) t.v_above_rated).1
  · simpa [tune_controller] using (second_order_PI_true_lengths c.zeta_pc c.omega_pc
      ((t.plantA.take t.v_op.length).drop t.v_below_rated.length)
      ((t.B_beta0.take t.v_op.length).drop t.v_below_rated.length) t.v_above_rated).2

theorem vs_sched_lengths (c : ControllerCfg) (t : Turbine) :
    (tune_controller c t).vs_gain_schedule.Kp.length = t.v_below_rated.length ∧
    (tune_controller c t).vs_gain_schedule.Ki.length = t.v_below_rated.length := by
  constructor
  · have := (second_order_PI_false_lengths c.zeta_vs c.omega_vs
      (t.plantA.take t.v_below_rated.length)
      (List.replicate t.v_below_rated.length t.B_tau0) (some t.v_below_rated)).1
    simp only [tune_controller]
    rw [this, List.length_take, List.length_replicate, length_plantA]
    have : t.v_below_rated.length ≤ t.v_op.length := by
      rw [length_v_op]; exact Nat.le_add_right _ _
    omega
  · have := (second_order_PI_false_lengths c.zeta_vs c.omega_vs
      (t.plantA.take t.v_below_rated.length)
      (List.replicate t.v_below_rated.length t.B_tau0) (some t.v_below_rated)).2
    simp only [tune_controller]
    rw [this, List.length_replicate]

theorem T1_below_length : T1.v_below_rated.length = 17 := by
  rw [Turbine.v_below_rated, arangeQ_length]
  have h : (⌈(T1.v_rated - T1.v_min) / (1 / 2)⌉ : ℤ) = 17 :=
    Int.ceil_eq_iff.mpr (by norm_num [T1])
  rw [h]; rfl

theorem T1_above_length : T1.v_above_rated.length = 27 := by
  rw [Turbine.v_above_rated, arangeQ_length]
  have h : (⌈(T1.v_max - (T1.v_rated + 1 / 2)) / (1 / 2)⌉ : ℤ) = 27 :=
    Int.ceil_eq_iff.mpr (by norm_num [T1])
  rw [h]; rfl

/-! ### Claim theorems -/

/-- C6 (amended): for every controller configuration and turbine model,
the below-rated wind-speed count plus the above-rated count equals the
total operating-point count, and every full-trajectory derived sequence
(`TSR_op`, `Cp_op`, `pitch_op`, the plant-pole sequence `A`, and the
peak-shaving outputs `pitch_min`, `Ct_op`, `Ct_max`, `Tshaved`) has
exactly that length; the gain schedules instead have the length of their
own region: the pitch-loop schedule has the above-rated count and the
torque-loop schedule the below-rated count. -/
theorem claim_C6_lengths (c : ControllerCfg) (t : Turbine) :
    (tune_controller c t).v.length =
      (tune_controller c t).v_below_rated.length +
        (tune_controller c t).v_above_rated.length ∧
    (tune_controller c t).TSR_op.length = (tune_controller c t).v.length ∧
    (tune_controller c t).Cp_op.length = (tune_controller c t).v.length ∧
    (tune_controller c t).pitch_op.length = (tune_controller c t).v.length ∧
    (tune_controller c t).A.length = (tune_controller c t).v.length ∧
    (tune_controller c t).ps.pitch_min.length = (tune_controller c t).v.length ∧
    (tune_controller c t).ps.Ct_op.length = (tune_controller c t).v.length ∧
    (tune_controller c t).ps.Ct_max.length = (tune_controller c t).v.length ∧
    (tune_controller c t).ps.Tshaved.length = (tune_controller c t).v.length ∧
    (tune_controller c t).pc_gain_schedule.Kp.length =
      (tune_controller c t).v_above_rated.length ∧
    (tune_controller c t).pc_gain_schedule.Ki.length =
      (tune_controller c t).v_above_rated.length ∧
    (tune_controller c t).vs_gain_schedule.Kp.length =
      (tune_controller c t).v_below_rated.length ∧
    (tune_controller c t).vs_gain_schedule.Ki.length =
      (tune_controller c t).v_below_rated.length := by
  have hT := length_TSR_op t
  have hP := length_pitch_op t
  have hps := peak_shaving_lengths c.ps_percent c.min_pitch t t.v_op t.TSR_op t.pitch_op
    hT hP
  have hb : t.v_below_rated.length ≤ t.v_op.length := by
    rw [length_v_op]; exact Nat.le_add_right _ _
  exact ⟨List.length_append _ _, hT, length_Cp_op t, hP, length_plantA t,
    hps.2.2.2.1, hps.2.1, hps.2.2.1, hps.2.2.2.2, (pc_sched_lengths c t).1,
    (pc_sched_lengths c t).2, (vs_sched_lengths c t).1, (vs_sched_lengths c t).2⟩

/-- C6 counterexample: for the turbine with `v_min = 3`, `v_rated = 11.4`,
`v_max = 25` the pitch-loop gain schedule has 27 entries while the total
operating-point count is 44, so the gain schedules do not have the total
operating-point length. -/
theorem claim_C6_counterexample :
    (tune_controller cfg1 T1).pc_gain_schedule.Kp.length ≠
      (tune_controller cfg1 T1).v.length := by
  have h1 := (pc_sched_lengths cfg1 T1).1
  have h2 : (tune_controller cfg1 T1).v.length = T1.v_op.length := rfl
  rw [h1, h2, length_v_op, T1_below_length, T1_above_length]
  norm_num

/-- C1 (amended): for every configuration and turbine, `tune_controller`
builds the below-rated grid as `arange(v_min, v_rated, 0.5)` and the
above-rated grid as `arange(v_rated+0.5, v_max, 0.5)`, every below-rated
point lies in `[v_min, v_rated)`, every above-rated point lies in
`(v_rated, v_max]`, and the full wind-speed sequence is the below-rated
grid followed by the above-rated grid; for `v_min = 3`, `v_rated = 11.4`,
`v_max = 25` the below-rated segment has length
`floor((v_rated - v_min)/0.5) + 1 = 17` (not `floor(...)` as claimed) and
the above-rated segment has length
`floor((v_max - v_rated - 0.5)/0.5) + 1 = 27`. -/
theorem claim_C1_grid :
    (∀ (c : ControllerCfg) (t : Turbine),
      (tune_controller c t).v_below_rated = arangeQ t.v_min t.v_rated (1 / 2) ∧
      (tune_controller c t).v_above_rated =
        arangeQ (t.v_rated + 1 / 2) t.v_max (1 / 2) ∧
      (tune_controller c t).v =
        (tune_controller c t).v_below_rated ++ (tune_controller c t).v_above_rated ∧
      (∀ x ∈ (tune_controller c t).v_below_rated, t.v_min ≤ x ∧ x < t.v_rated) ∧
      (∀ x ∈ (tune_controller c t).v_above_rated, t.v_rated < x ∧ x ≤ t.v_max)) ∧
    T1.v_below_rated.length = 17 ∧
    T1.v_above_rated.length = 27 ∧
    17 = (⌊(T1.v_rated - T1.v_min) / (1 / 2 : ℚ)⌋).toNat + 1 ∧
    27 = (⌊(T1.v_max - T1.v_rated - 1 / 2) / (1 / 2 : ℚ)⌋).toNat + 1 := by
  refine ⟨fun c t => ⟨rfl, rfl, rfl, ?_, ?_⟩, T1_below_length, T1_above_length, ?_, ?_⟩
  · intro x hx
    exact mem_arangeQ (by norm_num) hx
  · intro x hx
    have h := mem_arangeQ (by norm_num) hx
    constructor <;> linarith [h.1, h.2]
  · have h : (⌊(T1.v_rated - T1.v_min) / (1 / 2 : ℚ)⌋ : ℤ) = 16 :=
      Int.floor_eq_iff.mpr (by norm_num [T1])
    rw [h]; rfl
  · have h : (⌊(T1.v_max - T1.v_rated - 1 / 2) / (1 / 2 : ℚ)⌋ : ℤ) = 26 :=
      Int.floor_eq_iff.mpr (by norm_num [T1])
    rw [h]; rfl

/-- C1 counterexample: at `v_min = 3`, `v_rated = 11.4`, `v_max = 25` the
below-rated segment has 17 points, not `floor((v_rated - v_min)/0.5) = 16`
as the claim states. -/
theorem claim_C1_counterexample :
    (tune_controller cfg1 T1).v_below_rated.length ≠
      (⌊(T1.v_rated - T1.v_min) / (1 / 2 : ℚ)⌋).toNat := by
  have h : (⌊(T1.v_rated - T1.v_min) / (1 / 2 : ℚ)⌋ : ℤ) = 16 :=
    Int.floor_eq_iff.mpr (by norm_num [T1])
  have hb : (tune_controller cfg1 T1).v_below_rated.length = 17 := T1_below_length
  rw [hb, h]
  decide

/-- C1 witness: the second below-rated grid point of the concrete turbine
lies inside `[v_min, v_rated)`. -/
theorem claim_C1_witness : (3 : ℚ) ≤ 3 + 1 / 2 ∧ (3 + 1 / 2 : ℚ) < 11.4 := by
  have hmem : (3 + 1 / 2 : ℚ) ∈ (tune_controller cfg1 T1).v_below_rated := by
    show (3 + 1 / 2 : ℚ) ∈ T1.v_below_rated
    rw [Turbine.v_below_rated, arangeQ]
    refine List.mem_map.mpr ⟨1, List.mem_range.mpr ?_, by norm_num [T1]⟩
    have h17 : (⌈(T1.v_rated - T1.v_min) / (1 / 2 : ℚ)⌉).toNat = 17 := by
      have h := T1_below_length
      rwa [Turbine.v_below_rated, arangeQ_length] at h
    rw [h17]; norm_num
  have h := (claim_C1_grid.1 cfg1 T1).2.2.2.1 _ hmem
  exact ⟨h.1, h.2⟩

/-- C3: `second_order_PI` with `linearize=False` returns
`Kp[i] = (2*zeta*om_n + A[i]) / B[i]` and `Ki[i] = om_n^2 / B[i]`
elementwise, with both outputs of the same length as `A` and `B`. -/
theorem claim_C3_second_order_PI (zeta om_n : ℚ) (A B : List ℚ)
    (v : Option (List ℚ)) (hz : 0 < zeta) (hw : 0 < om_n)
    (hlen : A.length = B.length)
    (hB : ∀ i (h : i < B.length), B.get ⟨i, h⟩ ≠ 0) :
    (second_order_PI zeta om_n A B false v).Kp.length = A.length ∧
    (second_order_PI zeta om_n A B false v).Ki.length = A.length ∧
    (∀ i (h1 : i < (second_order_PI zeta om_n A B false v).Kp.length)
      (h2 : i < A.length) (h3 : i < B.length),
      (second_order_PI zeta om_n A B false v).Kp.get ⟨i, h1⟩ =
        (2 * zeta * om_n + A.get ⟨i, h2⟩) / B.get ⟨i, h3⟩) ∧
    (∀ i (h1 : i < (second_order_PI zeta om_n A B false v).Ki.length)
      (h3 : i < B.length),
      (second_order_PI zeta om_n A B false v).Ki.get ⟨i, h1⟩ =
        om_n ^ 2 / B.get ⟨i, h3⟩) := by
  refine ⟨by simp [second_order_PI, hlen], by simp [second_order_PI, hlen], ?_, ?_⟩
  · intro i h1 h2 h3
    simp only [second_order_PI, if_neg (by simp : ¬false = true), List.get_eq_getElem,
      List.getElem_zipWith]
    rw [one_div_mul_eq_div]
  · intro i h1 h3
    simp [second_order_PI]

/-- C3 witness: concrete evaluation at `zeta = 0.7`, `om_n = 0.3`,
`A = [1, 2]`, `B = [4, 5]`. -/
theorem claim_C3_witness :
    0 < (0.7 : ℚ) ∧ 0 < (0.3 : ℚ) ∧
    ([1, 2] : List ℚ).length = ([4, 5] : List ℚ).length ∧
    (second_order_PI 0.7 0.3 [1, 2] [4, 5] false none).Kp.length = 2 ∧
    (second_order_PI 0.7 0.3 [1, 2] [4, 5] false none).Kp.get
      ⟨0, by simp [second_order_PI]⟩ = (2 * 0.7 * 0.3 + 1) / 4 := by
  have hB : ∀ i (h : i < ([4, 5] : List ℚ).length),
      ([4, 5] : List ℚ).get ⟨i, h⟩ ≠ 0 := by
    intro i h
    match i, h with
    | 0, _ => norm_num
    | 1, _ => norm_num
  have h := claim_C3_second_order_PI 0.7 0.3 [1, 2] [4, 5] none (by norm_num)
    (by norm_num) rfl hB
  exact ⟨by norm_num, by norm_num, rfl, h.1, h.2.2.1 0 _ (by norm_num) (by norm_num)⟩

/-- C4: `Controller.__init__` replaces each falsy optional parameter
(`min_pitch`, `max_pitch`, `ss_vsgain`, `ss_pcgain`, `ss_cornerfreq`,
`ps_percent`) by its documented default (`0`, `90*deg2rad`, `1.0`,
`0.001`, `0.62831850001`, `0.75`) and keeps any non-falsy supplied value
unchanged; the substitution is a total function, not an error path. -/
theorem claim_C4_defaults (p : ControllerParams) :
    defaultedTo p.min_pitch 0 (controllerInit p).min_pitch ∧
    defaultedTo p.max_pitch (90 * deg2rad) (controllerInit p).max_pitch ∧
    defaultedTo p.ss_vsgain 1 (controllerInit p).ss_vsgain ∧
    defaultedTo p.ss_pcgain 0.001 (controllerInit p).ss_pcgain ∧
    defaultedTo p.ss_cornerfreq 0.62831850001 (controllerInit p).ss_cornerfreq ∧
    defaultedTo p.ps_percent 0.75 (controllerInit p).ps_percent := by
  have h : ∀ (v : Option ℚ) (d : ℚ), defaultedTo v d (pyFalsyDefault v d) := by
    intro v d
    constructor
    · rintro (rfl | rfl) <;> simp [pyFalsyDefault]
    · rintro x rfl hx
      simp [pyFalsyDefault, hx]
  exact ⟨h _ _, h _ _, h _ _, h _ _, h _ _, h _ _⟩

/-- C4 witness: concrete parameter mapping mixing falsy and non-falsy
entries. -/
theorem claim_C4_witness :
    (controllerInit paramsW).min_pitch = 0 ∧
    (controllerInit paramsW).max_pitch = 1.2 ∧
    (controllerInit paramsW).ss_vsgain = 1 ∧
    (controllerInit paramsW).ss_pcgain = 0.002 ∧
    (controllerInit paramsW).ss_cornerfreq = 0.62831850001 ∧
    (controllerInit paramsW).ps_percent = 0.8 :=
  ⟨(claim_C4_defaults paramsW).1.1 (Or.inl rfl),
   (claim_C4_defaults paramsW).2.1.2 1.2 rfl (by norm_num),
   (claim_C4_defaults paramsW).2.2.1.1 (Or.inr rfl),
   (claim_C4_defaults paramsW).2.2.2.1.2 0.002 rfl (by norm_num),
   (claim_C4_defaults paramsW).2.2.2.2.1.1 (Or.inl rfl),
   (claim_C4_defaults paramsW).2.2.2.2.2.2 0.8 rfl (by norm_num)⟩

/-- C9: `tune_controller` forms the plant pole sequence as
`dtau_domega/J`, replicates the constant torque-input gain `-Ng^2/J` to
the below-rated length, slices the pitch-input gain `dtau_dbeta/J` to the
above-rated indices, and synthesizes the pitch-loop schedule from the
above-rated slices and the torque-loop schedule from the below-rated
slices. -/
theorem claim_C9_region_split (c : ControllerCfg) (t : Turbine) :
    (tune_controller c t).A = t.dtau_domega.map (fun x => x / t.J) ∧
    (tune_controller c t).B_tau =
      List.replicate (tune_controller c t).v_below_rated.length (-t.Ng ^ 2 / t.J) ∧
    (tune_controller c t).B_beta =
      ((t.dtau_dbeta.map (fun x => x / t.J)).take
        (tune_controller c t).v.length).drop
        (tune_controller c t).v_below_rated.length ∧
    (tune_controller c t).pc_gain_schedule =
      second_order_PI c.zeta_pc c.omega_pc
        (((tune_controller c t).A.take (tune_controller c t).v.length).drop
          (tune_controller c t).v_below_rated.length)
        (tune_controller c t).B_beta true (some (tune_controller c t).v_above_rated) ∧
    (tune_controller c t).vs_gain_schedule =
      second_order_PI c.zeta_vs c.omega_vs
        ((tune_controller c t).A.take (tune_controller c t).v_below_rated.length)
        (tune_controller c t).B_tau false (some (tune_controller c t).v_below_rated) :=
  ⟨rfl, rfl, rfl, rfl, rfl⟩

/-- C10: with `linearize=False` the gains of `second_order_PI` do not
depend on the wind-speed argument `v` at all. -/
theorem claim_C10_v_independent (zeta om_n : ℚ) (A B : List ℚ)
    (v1 v2 : Option (List ℚ)) :
    second_order_PI zeta om_n A B false v1 = second_order_PI zeta om_n A B false v2 :=
  rfl

theorem arangeQ_getElem (a b s : ℚ) (i : ℕ) (h : i < (arangeQ a b s).length) :
    (arangeQ a b s)[i] = a + s * (i : ℚ) := by
  simp [arangeQ]

theorem replicate_append_take (n : ℕ) (x : ℚ) (l : List ℚ) :
    (List.replicate n x ++ l).take n = List.replicate n x := by
  have h := List.take_left (List.replicate n x) l
  rwa [List.length_replicate] at h

theorem replicate_append_drop (n : ℕ) (x : ℚ) (l : List ℚ) :
    (List.replicate n x ++ l).drop n = l := by
  have h := List.drop_left (List.replicate n x) l
  rwa [List.length_replicate] at h

/-- C7: every below-rated tip-speed-ratio target equals the
optimal tip-speed ratio of the surface (a constant sequence), and the above-rated
targets `rated_rotor_speed*R/v` strictly decrease as the above-rated wind
speed increases. -/
theorem claim_C7_TSR_targets (c : ControllerCfg) (t : Turbine)
    (hR : 0 < t.rotor_radius) (hw : 0 < t.rated_rotor_speed)
    (hv : 0 < t.v_rated) :
    (tune_controller c t).TSR_op.take (tune_controller c t).v_below_rated.length =
      List.replicate (tune_controller c t).v_below_rated.length t.Cp.TSR_opt ∧
    (∀ i j
      (hi : i < ((tune_controller c t).TSR_op.drop
        (tune_controller c t).v_below_rated.length).length)
      (hj : j < ((tune_controller c t).TSR_op.drop
        (tune_controller c t).v_below_rated.length).length),
      i < j →
      ((tune_controller c t).TSR_op.drop
        (tune_controller c t).v_below_rated.length).get ⟨j, hj⟩ <
      ((tune_controller c t).TSR_op.drop
        (tune_controller c t).v_below_rated.length).get ⟨i, hi⟩) := by
  have hTSR : (tune_controller c t).TSR_op =
      List.replicate t.v_below_rated.length t.Cp.TSR_opt ++ t.TSR_above_rated := rfl
  have hnb : (tune_controller c t).v_below_rated.length = t.v_below_rated.length := rfl
  constructor
  · rw [hTSR, hnb]
    exact replicate_append_take _ _ _
  · intro i j hi hj hij
    have hdrop : (tune_controller c t).TSR_op.drop
        (tune_controller c t).v_below_rated.length = t.TSR_above_rated := by
      rw [hTSR, hnb]
      exact replicate_append_drop _ _ _
    have hget : ∀ (k : ℕ)
        (hdk : k < ((tune_controller c t).TSR_op.drop
          (tune_controller c t).v_below_rated.length).length),
        ((tune_controller c t).TSR_op.drop
          (tune_controller c t).v_below_rated.length).get ⟨k, hdk⟩ =
          t.rated_rotor_speed * t.rotor_radius /
            (t.v_rated + 1 / 2 + 1 / 2 * (k : ℚ)) := by
      intro k hdk
      simp only [List.get_eq_getElem, hdrop, Turbine.TSR_above_rated,
        List.getElem_map, Turbine.v_above_rated, arangeQ_getElem]
    rw [hget i hi, hget j hj]
    have hnum : 0 < t.rated_rotor_speed * t.rotor_radius := mul_pos hw hR
    have hdi : (0 : ℚ) < t.v_rated + 1 / 2 + 1 / 2 * (i : ℚ) := by positivity
    have hcast : (i : ℚ) < (j : ℚ) := by exact_mod_cast hij
    exact div_lt_div_of_pos_left hnum hdi (by linarith)

/-- C7 witness: the constant below-rated segment at the concrete turbine
with positive radius, rated rotor speed and rated wind speed. -/
theorem claim_C7_witness :
    0 < T1.rotor_radius ∧ 0 < T1.rated_rotor_speed ∧ 0 < T1.v_rated ∧
    (tune_controller cfg1 T1).TSR_op.take
        (tune_controller cfg1 T1).v_below_rated.length =
      List.replicate (tune_controller cfg1 T1).v_below_rated.length T1.Cp.TSR_opt :=
  ⟨by norm_num [T1], by norm_num [T1], by norm_num [T1],
    (claim_C7_TSR_targets cfg1 T1 (by norm_num [T1]) (by norm_num [T1])
      (by norm_num [T1])).1⟩

/-- C8: after the clamping step every power-coefficient target lies
within `[min, max]` of the Cp-surface slice taken at the tip-speed ratio
of that operating point, and an out-of-range unconstrained target is
saturated to the nearest achievable bound. -/
theorem claim_C8_Cp_clamped (c : ControllerCfg) (t : Turbine)
    (hne : t.pitch_initial_rad ≠ []) (i : ℕ)
    (h1 : i < (tune_controller c t).Cp_op.length)
    (h2 : i < (tune_controller c t).TSR_op.length)
    (h3 : i < t.Cp_op0.length) :
    minQ (surfaceSlice t.Cp t.pitch_initial_rad
        ((tune_controller c t).TSR_op.get ⟨i, h2⟩)) ≤
      (tune_controller c t).Cp_op.get ⟨i, h1⟩ ∧
    (tune_controller c t).Cp_op.get ⟨i, h1⟩ ≤
      maxQ (surfaceSlice t.Cp t.pitch_initial_rad
        ((tune_controller c t).TSR_op.get ⟨i, h2⟩)) ∧
    (t.Cp_op0.get ⟨i, h3⟩ < minQ (surfaceSlice t.Cp t.pitch_initial_rad
        ((tune_controller c t).TSR_op.get ⟨i, h2⟩)) →
      (tune_controller c t).Cp_op.get ⟨i, h1⟩ =
        minQ (surfaceSlice t.Cp t.pitch_initial_rad
          ((tune_controller c t).TSR_op.get ⟨i, h2⟩))) ∧
    (maxQ (surfaceSlice t.Cp t.pitch_initial_rad
        ((tune_controller c t).TSR_op.get ⟨i, h2⟩)) < t.Cp_op0.get ⟨i, h3⟩ →
      (tune_controller c t).Cp_op.get ⟨i, h1⟩ =
        maxQ (surfaceSlice t.Cp t.pitch_initial_rad
          ((tune_controller c t).TSR_op.get ⟨i, h2⟩))) := by
  have hslice : surfaceSlice t.Cp t.pitch_initial_rad
      ((tune_controller c t).TSR_op.get ⟨i, h2⟩) ≠ [] := by
    simp [surfaceSlice, hne]
  have hlohi := minQ_le_maxQ hslice
  have hget : (tune_controller c t).Cp_op.get ⟨i, h1⟩ =
      clipQ (t.Cp_op0.get ⟨i, h3⟩)
        (minQ (surfaceSlice t.Cp t.pitch_initial_rad
          ((tune_controller c t).TSR_op.get ⟨i, h2⟩)))
        (maxQ (surfaceSlice t.Cp t.pitch_initial_rad
          ((tune_controller c t).TSR_op.get ⟨i, h2⟩))) := by
    show t.Cp_op.get ⟨i, h1⟩ = _
    simp only [Turbine.Cp_op, Turbine.opQuads, List.get_eq_getElem, List.getElem_map,
      List.getElem_zip, opPointBody]
    rfl
  rw [hget]
  refine ⟨(clipQ_mem hlohi).1, (clipQ_mem hlohi).2, ?_, ?_⟩
  · intro hlt
    unfold clipQ
    rw [max_eq_right (le_of_lt hlt), min_eq_left hlohi]
  · intro hgt
    unfold clipQ
    rw [min_eq_right (le_trans (le_of_lt hgt) (le_max_left _ _))]

/-- C8 witness: containment at the first operating point of the concrete
turbine. -/
theorem claim_C8_witness :
    T1.pitch_initial_rad ≠ [] ∧
    minQ (surfaceSlice T1.Cp T1.pitch_initial_rad
        ((tune_controller cfg1 T1).TSR_op.get ⟨0, by
          have h := length_TSR_op T1
          have h2 := length_v_op T1
          rw [T1_below_length, T1_above_length] at h2
          show 0 < T1.TSR_op.length
          omega⟩)) ≤
      (tune_controller cfg1 T1).Cp_op.get ⟨0, by
        have h := length_Cp_op T1
        have h2 := length_v_op T1
        rw [T1_below_length, T1_above_length] at h2
        show 0 < T1.Cp_op.length
        omega⟩ := by
  refine ⟨by simp [T1], ?_⟩
  exact (claim_C8_Cp_clamped cfg1 T1 (by simp [T1]) 0 (by
    have h := length_Cp_op T1
    have h2 := length_v_op T1
    rw [T1_below_length, T1_above_length] at h2
    show 0 < T1.Cp_op.length
    omega) (by
    have h := length_TSR_op T1
    have h2 := length_v_op T1
    rw [T1_below_length, T1_above_length] at h2
    show 0 < T1.TSR_op.length
    omega) (by
    have h := length_Cp_op0 T1
    have h2 := length_v_op T1
    rw [T1_below_length, T1_above_length] at h2
    omega)).1

/-- C2 (amended): for every operating trajectory, with `ps_percent = 1.0`
the shaved thrust sequence equals the unshaved thrust sequence (no point
exceeds the global maximum); the minimum-pitch sequence, however, is
produced by slice inversion at the clamped thrust-coefficient ceiling at
every index and need not equal the configured floor. -/
theorem claim_C2_unit_ps (min_pitch : ℚ) (t : Turbine) (v TSR_op pitch_op : List ℚ) :
    (peak_shaving 1 min_pitch t v TSR_op pitch_op).Tshaved =
      (peak_shaving 1 min_pitch t v TSR_op pitch_op).T := by
  show List.zipWith (thrustOf t) v ((psTrips 1 t v TSR_op pitch_op).map (fun x => x.1)) =
    psT t v TSR_op pitch_op
  have hT : psT t v TSR_op pitch_op =
      List.zipWith (thrustOf t) v (psCt_op0 t TSR_op pitch_op) := rfl
  have hlenT : (psT t v TSR_op pitch_op).length =
      min v.length (psCt_op0 t TSR_op pitch_op).length := by
    rw [hT, List.length_zipWith]
  have hlenC : (psCt_op0 t TSR_op pitch_op).length ≤ TSR_op.length := by
    simp [psCt_op0]
  have hlentr : (psTrips 1 t v TSR_op pitch_op).length =
      (psT t v TSR_op pitch_op).length := by
    simp only [psTrips, zipWith4_length, hlenT]
    omega
  apply List.ext_getElem
  · simp only [List.length_zipWith, List.length_map, hlentr, hlenT]
    omega
  · intro i hL hR
    have hiv : i < v.length := by
      simp only [List.length_zipWith, List.length_map] at hL
      omega
    have hiT : i < (psT t v TSR_op pitch_op).length := hR
    have hitr : i < (psTrips 1 t v TSR_op pitch_op).length := by rw [hlentr]; exact hR
    have hiC : i < (psCt_op0 t TSR_op pitch_op).length := by
      rw [hlenT] at hR; omega
    have hiTSR : i < TSR_op.length := lt_of_lt_of_le hiC hlenC
    simp only [List.getElem_zipWith, List.getElem_map]
    have htrip : (psTrips 1 t v TSR_op pitch_op)[i] =
        psBody t (1 * maxQ (psT t v TSR_op pitch_op)) (TSR_op.get ⟨i, hiTSR⟩)
          (v.get ⟨i, hiv⟩) ((psT t v TSR_op pitch_op).get ⟨i, hiT⟩)
          ((psCt_op0 t TSR_op pitch_op).get ⟨i, hiC⟩) := by
      show (psTrips 1 t v TSR_op pitch_op).get ⟨i, hitr⟩ = _
      exact zipWith4_get _ TSR_op v (psT t v TSR_op pitch_op)
        (psCt_op0 t TSR_op pitch_op) i hitr hiTSR hiv hiT hiC
    rw [htrip]
    have hnotgt : ¬ ((psT t v TSR_op pitch_op).get ⟨i, hiT⟩ >
        1 * maxQ (psT t v TSR_op pitch_op)) := by
      rw [one_mul]
      exact not_lt.mpr (le_maxQ (List.get_mem _ _ _))
    have hfst : (psBody t (1 * maxQ (psT t v TSR_op pitch_op)) (TSR_op.get ⟨i, hiTSR⟩)
        (v.get ⟨i, hiv⟩) ((psT t v TSR_op pitch_op).get ⟨i, hiT⟩)
        ((psCt_op0 t TSR_op pitch_op).get ⟨i, hiC⟩)).1 =
        (psCt_op0 t TSR_op pitch_op).get ⟨i, hiC⟩ := by
      simp only [psBody]
      rw [if_neg hnotgt]
    rw [hfst]
    have hTi : (psT t v TSR_op pitch_op)[i] =
        thrustOf t (v.get ⟨i, hiv⟩) ((psCt_op0 t TSR_op pitch_op).get ⟨i, hiC⟩) := by
      show (List.zipWith (thrustOf t) v (psCt_op0 t TSR_op pitch_op))[i] = _
      simp only [List.get_eq_getElem, List.getElem_zipWith]
    rw [hTi]
    simp only [List.get_eq_getElem]

/-- C2 counterexample: on the trajectory `v = [1, 2]`, `TSR_op = [1, 1]`,
`pitch_op = [1/2, 1/2]` over the concrete thrust surface, with
`ps_percent = 1.0` and `min_pitch = 0`, the minimum-pitch sequence is
`[0, 1/2]`, not the configured floor everywhere. -/
theorem claim_C2_counterexample :
    (peak_shaving 1 0 T2 [1, 2] [1, 1] [1 / 2, 1 / 2]).pitch_min ≠
      List.replicate 2 (0 : ℚ) := by
  have h : (peak_shaving 1 0 T2 [1, 2] [1, 1] [1 / 2, 1 / 2]).pitch_min =
      [0, 1 / 2] := by
    norm_num [peak_shaving, psTrips, psT, psCt_op0, psBody, zipWith4, thrustOf,
      Turbine.Ar, surfaceSlice, interp1dFill, sortByFst, insertByFst, interpSorted,
      maxQ, max_def, min_def, T2, surfCtLin, piQ]
  rw [h]
  norm_num [List.replicate_succ]

theorem sse_expand (v : List ℚ) : ∀ (y : List ℚ), v.length = y.length →
    ∀ a b : ℚ, sse v y a b =
      a ^ 2 * (v.map (fun u => u ^ 2)).sum + 2 * a * b * v.sum +
        b ^ 2 * (v.length : ℚ) - 2 * a * (List.zipWith (· * ·) v y).sum -
        2 * b * y.sum + (y.map (fun u => u ^ 2)).sum := by
  induction v with
  | nil =>
    intro y h a b
    cases y with
    | nil => simp [sse]
    | cons z zs => simp at h
  | cons x xs ih =>
    intro y h a b
    cases y with
    | nil => simp at h
    | cons z zs =>
      have h2 : xs.length = zs.length := by simpa using h
      have ih2 : (List.zipWith (fun vi yi => (a * vi + b - yi) ^ 2) xs zs).sum =
          a ^ 2 * (xs.map (fun u => u ^ 2)).sum + 2 * a * b * xs.sum +
            b ^ 2 * (xs.length : ℚ) - 2 * a * (List.zipWith (· * ·) xs zs).sum -
            2 * b * zs.sum + (zs.map (fun u => u ^ 2)).sum := by
        have := ih zs h2 a b
        simpa [sse] using this
      simp only [sse, List.zipWith_cons_cons, List.sum_cons, List.map_cons,
        List.length_cons]
      rw [ih2]
      push_cast
      ring

theorem dQ_pos_length {v : List ℚ} (hd : 0 < dQ v) : 0 < v.length := by
  rcases v with _ | ⟨x, xs⟩
  · simp [dQ] at hd
  · simp

theorem lsq_key (n Sx Sy Sxx Sxy a b : ℚ) (hn : n ≠ 0)
    (hd : n * Sxx - Sx ^ 2 ≠ 0) :
    n * (n * Sxx - Sx ^ 2) *
      ((a ^ 2 * Sxx + 2 * a * b * Sx + b ^ 2 * n - 2 * a * Sxy - 2 * b * Sy) -
        (((n * Sxy - Sx * Sy) / (n * Sxx - Sx ^ 2)) ^ 2 * Sxx +
          2 * ((n * Sxy - Sx * Sy) / (n * Sxx - Sx ^ 2)) *
            ((Sy - ((n * Sxy - Sx * Sy) / (n * Sxx - Sx ^ 2)) * Sx) / n) * Sx +
          ((Sy - ((n * Sxy - Sx * Sy) / (n * Sxx - Sx ^ 2)) * Sx) / n) ^ 2 * n -
          2 * ((n * Sxy - Sx * Sy) / (n * Sxx - Sx ^ 2)) * Sxy -
          2 * ((Sy - ((n * Sxy - Sx * Sy) / (n * Sxx - Sx ^ 2)) * Sx) / n) * Sy)) =
      (n * Sxx - Sx ^ 2) * (n * b + Sx * a - Sy) ^ 2 +
        ((n * Sxx - Sx ^ 2) * a - (n * Sxy - Sx * Sy)) ^ 2 := by
  field_simp
  ring

theorem polyfit1_isLSQ (v y : List ℚ) (hd : 0 < dQ v)
    (hlen : v.length = y.length) :
    ∀ a b : ℚ, sse v y (polyfit1 v y).1 (polyfit1 v y).2 ≤ sse v y a b := by
  intro a b
  have hnpos : (0 : ℚ) < (v.length : ℚ) := by
    exact_mod_cast dQ_pos_length hd
  have hdq : dQ v =
      (v.length : ℚ) * (v.map (fun u => u ^ 2)).sum - v.sum ^ 2 := rfl
  have hdpos : (0 : ℚ) <
      (v.length : ℚ) * (v.map (fun u => u ^ 2)).sum - v.sum ^ 2 := by
    rw [← hdq]; exact hd
  have hp : (polyfit1 v y).1 =
      ((v.length : ℚ) * (List.zipWith (· * ·) v y).sum - v.sum * y.sum) /
        ((v.length : ℚ) * (v.map (fun u => u ^ 2)).sum - v.sum ^ 2) := rfl
  have hq : (polyfit1 v y).2 =
      (y.sum - (polyfit1 v y).1 * v.sum) / (v.length : ℚ) := rfl
  have e1 := sse_expand v y hlen a b
  have e2 := sse_expand v y hlen (polyfit1 v y).1 (polyfit1 v y).2
  have key := lsq_key (v.length : ℚ) v.sum y.sum (v.map (fun u => u ^ 2)).sum
    (List.zipWith (· * ·) v y).sum a b (ne_of_gt hnpos) (ne_of_gt hdpos)
  rw [hp] at hq
  rw [e1, e2, hp, hq]
  nlinarith [key, sq_nonneg ((v.length : ℚ) * b + v.sum * a - y.sum),
    sq_nonneg (((v.length : ℚ) * (v.map (fun u => u ^ 2)).sum - v.sum ^ 2) * a -
      ((v.length : ℚ) * (List.zipWith (· * ·) v y).sum - v.sum * y.sum)),
    mul_pos hnpos hdpos]

/-- C5: `second_order_PI` with `linearize=True` equals the reference
fit-then-substitute computation: it agrees with `second_order_PI` without
linearization applied to the fitted sequences `linFit v A`, `linFit v B`,
and the fitted coefficients are the least-squares-optimal straight line
through the data (any other line has a residual sum of squares at least
as large). -/
theorem claim_C5_linearize (zeta om_n : ℚ) (A B v : List ℚ) (hd : 0 < dQ v)
    (hA : v.length = A.length) (hB : v.length = B.length) :
    second_order_PI zeta om_n A B true (some v) =
      second_order_PI zeta om_n (linFit v A) (linFit v B) false none ∧
    (∀ a b : ℚ, sse v A (polyfit1 v A).1 (polyfit1 v A).2 ≤ sse v A a b) ∧
    (∀ a b : ℚ, sse v B (polyfit1 v B).1 (polyfit1 v B).2 ≤ sse v B a b) :=
  ⟨rfl, polyfit1_isLSQ v A hd hA, polyfit1_isLSQ v B hd hB⟩

/-- C5 witness: the synthetic 3-point example `v = [1, 2, 3]`,
`A = [2, 3, 5]`, `B = [1, 1, 2]`. -/
theorem claim_C5_witness :
    0 < dQ [(1 : ℚ), 2, 3] ∧
    second_order_PI 0.7 0.3 [2, 3, 5] [1, 1, 2] true (some [1, 2, 3]) =
      second_order_PI 0.7 0.3 (linFit [1, 2, 3] [2, 3, 5])
        (linFit [1, 2, 3] [1, 1, 2]) false none ∧
    sse [(1 : ℚ), 2, 3] [2, 3, 5] (polyfit1 [1, 2, 3] [2, 3, 5]).1
        (polyfit1 [1, 2, 3] [2, 3, 5]).2 ≤ sse [(1 : ℚ), 2, 3] [2, 3, 5] 0 0 := by
  have h := claim_C5_linearize 0.7 0.3 [2, 3, 5] [1, 1, 2] [1, 2, 3]
    (by norm_num [dQ]) rfl rfl
  exact ⟨by norm_num [dQ], h.1, h.2.1 0 0⟩

end ROSCO
